import Mathlib

/-!
Verification of the copper solvent-extraction optimizer's calculation engine.

The engine is a numerical core: a secant-method root finder (`solve`), a
closed-form cubic solver (`solveCubic`), a semi-empirical isotherm model
(`organicFromAqueous` / `aqueousFromOrganic`), two circuit simulators
(`extractionCalc` / `strippingCalc` + `strippingBody`), and an outer
consistency search (`objectiveFunction` / `runSolver`).

The embedding is parametric over a `LinearOrderedField` together with an
operator pack `Ops` providing the transcendental primitives (square root,
cube root, cosine, arc cosine, real power) that the source uses.  The real
program is the instantiation at `realOps : Ops ℝ` (genuine `Real.sqrt`,
`Real.cos`, ...).  Structural facts (guards, error propagation, branch
shape) are proved for every operator pack, hence in particular for
`realOps`; facts that depend on the actual analytic functions are proved at
`realOps` directly.  A computable pack `ratOps : Ops ℚ` lets the structural
theorems be evaluated on concrete inputs.

Source behaviour that has no direct counterpart in an ordered field is
embedded as follows: a secant step whose denominator `f1 - f0` is zero
yields a non-finite candidate in the source (`NaN` or `±Infinity`, both
rejected by the `isNaN(x2) || !isFinite(x2) || x2 <= 0` guard and turned
into the divergence error), so the embedded loop raises the same divergence
error exactly when `f1 - f0 = 0`; exceptions become `Except` errors and the
`try`/`catch` in `calculateAll` becomes `Except.toOption`.
-/

namespace SX

/-- Transcendental primitives used by the calculation engine
(`Math.sqrt`, `Math.cbrt`, `Math.cos`, `Math.acos`, `Math.pow`). -/
structure Ops (α : Type) where
  sqrt : α → α
  cbrt : α → α
  cos : α → α
  acos : α → α
  rpow : α → α → α

/-- The twelve scalar inputs of the process model, in the order of the
source's input record. -/
structure ProcessInputs (α : Type) where
  plsFlow : α
  plsCu : α
  plsAcid : α
  percentageML : α
  o_a_ex : α
  effE1 : α
  effE2 : α
  spCu : α
  spAcid : α
  adCu : α
  effS1 : α
  effS2 : α
deriving DecidableEq

/-- The distinct failure messages the engine can raise: secant divergence,
iteration-budget exhaustion, the loaded-organic consistency violation in the
stripping simulator, and the out-of-range check on the converged V%. -/
inductive Err : Type where
  | diverged : Err
  | notConverged : Err
  | modelInconsistency : Err
  | outOfRange : Err
deriving DecidableEq

variable {α : Type} [LinearOrderedField α]

/-- Iteration core of the secant root finder.  State is
`(x0, f0, x1, f1)`; the fuel is the remaining iteration budget.  Checks in
source order: tolerance test on `|f1|`, then the secant update with its
validity guard (`f1 - f0 = 0` is the embedded form of the source's
non-finite-candidate test, see the file comment), then the shift. -/
def solveLoop (f : α → α) (tol : α) : Nat → α → α → α → α → Except Err α
  | 0, _, _, _, _ => .error .notConverged
  | n + 1, x0, f0, x1, f1 =>
    if |f1| < tol then .ok x1
    else if f1 - f0 = 0 then .error .diverged
    else
      let x2 := x1 - f1 * (x1 - x0) / (f1 - f0)
      if x2 ≤ 0 then .error .diverged
      else solveLoop f tol n x1 f1 x2 (f x2)

/-- Secant root finder.  Seeds `initialGuess ∓ 0.1`, clamps the left seed to
`0.1` when it is non-positive, then iterates `solveLoop`. -/
def solve (f : α → α) (initialGuess tol : α) (maxIter : Nat) : Except Err α :=
  let x0 := initialGuess - 0.1
  let x1 := initialGuess + 0.1
  let x0 := if x0 ≤ 0 then 0.1 else x0
  solveLoop f tol maxIter x0 (f x0) x1 (f x1)

/-- Closed-form cubic solver (Cardano / trigonometric hybrid) for
`a·x³ + b·x² + c·x + d = 0`, returning `none` for a degenerate leading
coefficient and otherwise the single root the source's branch policy
selects. -/
def solveCubic (ops : Ops α) (a b c d : α) : Option α :=
  if |a| < 1e-9 then none
  else
    let p := c / a - b * b / (3 * a * a)
    let q := 2 * b * b * b / (27 * a * a * a) - b * c / (3 * a * a) + d / a
    let term1 := q / 2
    let term2 := q * q / 4 + p * p * p / 27
    if 0 ≤ term2 then
      let sqrt_term2 := ops.sqrt term2
      let u := ops.cbrt (-term1 + sqrt_term2)
      let v := ops.cbrt (-term1 - sqrt_term2)
      some (u + v - b / (3 * a))
    else
      let r := ops.sqrt (-(p * p * p) / 27)
      let phi := ops.acos (-q / (2 * r))
      some (2 * ops.cbrt r * ops.cos (phi / 3) - b / (3 * a))

/-- Depressed-cubic coefficient `p` of `solveCubic` (named form of its
internal binding, for use in proofs). -/
def cubicP (a b c : α) : α := c / a - b * b / (3 * a * a)

/-- Depressed-cubic coefficient `q` of `solveCubic` (named form of its
internal binding, for use in proofs). -/
def cubicQ (a b c d : α) : α :=
  2 * b * b * b / (27 * a * a * a) - b * c / (3 * a * a) + d / a

/-- Branch discriminant `term2 = q²/4 + p³/27` of `solveCubic` (named form
of its internal binding, for use in proofs). -/
def cubicTerm2 (a b c d : α) : α :=
  cubicQ a b c d * cubicQ a b c d / 4 +
    cubicP a b c * cubicP a b c * cubicP a b c / 27

/-- The six empirical isotherm constants of one circuit. -/
structure IsoConsts (α : Type) where
  a : α
  b : α
  c : α
  d : α
  e : α
  f : α
deriving DecidableEq

/-- Extraction-circuit constants derived from the inputs and the trial V%. -/
def exConsts (ops : Ops α) (i : ProcessInputs α) (V : α) : IsoConsts α where
  a := i.plsAcid + 1.54 * i.plsCu
  b := -1.54
  c := 3.303 * V
  d := -3.0842
  e := -25.698 * ops.rpow V (-1.704)
  f := 10.663 * ops.rpow V (-0.608)

/-- Stripping-circuit constants derived from the inputs and the trial V%. -/
def stConsts (ops : Ops α) (i : ProcessInputs α) (V : α) : IsoConsts α where
  a := i.spAcid + 1.54 * i.spCu
  b := -1.54
  c := 3.303 * V
  d := -3.0842
  e := 5.11e-3 * V - 0.194
  f := 12.81 * ops.rpow V (-0.901)

/-- Intermediate quantity `g = (a + b·Cu_aq)² / Cu_aq` of the
aqueous-to-organic direction. -/
def gOf (cs : IsoConsts α) (cu_aq : α) : α :=
  (cs.a + cs.b * cu_aq) ^ 2 / cu_aq

/-- Quadratic coefficient `α` of the monic cubic the aqueous-to-organic
direction solves. -/
def alphaOf (cs : IsoConsts α) : α :=
  (2 * cs.c * cs.d * cs.e + cs.d ^ 2 * cs.f) / (cs.d ^ 2 * cs.e)

/-- Linear coefficient `λ` of the monic cubic the aqueous-to-organic
direction solves. -/
def lambdaOf (cs : IsoConsts α) (cu_aq : α) : α :=
  (2 * cs.c * cs.d * cs.f + cs.c ^ 2 * cs.e - gOf cs cu_aq) / (cs.d ^ 2 * cs.e)

/-- Constant coefficient `ε` of the monic cubic the aqueous-to-organic
direction solves. -/
def epsOf (cs : IsoConsts α) : α :=
  cs.f * cs.c ^ 2 / (cs.d ^ 2 * cs.e)

/-- Aqueous-to-organic direction of the isotherm: zero on non-positive
input, otherwise the root of the monic cubic `(1, α, λ, ε)`.  The leading
coefficient passed to `solveCubic` is the literal `1`, so the degenerate
branch cannot fire; the `getD 0` only serves to extract the value. -/
def organicFromAqueous (ops : Ops α) (cs : IsoConsts α) (cu_aq : α) : α :=
  if cu_aq ≤ 0 then 0
  else (solveCubic ops 1 (alphaOf cs) (lambdaOf cs cu_aq) (epsOf cs)).getD 0

/-- Intermediate quantity `h = (e·Cu_or + f)·(c + d·Cu_or)² / Cu_or` of the
organic-to-aqueous direction. -/
def hOf (cs : IsoConsts α) (cu_or : α) : α :=
  (cs.e * cu_or + cs.f) * (cs.c + cs.d * cu_or) ^ 2 / cu_or

/-- Discriminant of the quadratic `b'·x² + (2ab − h)·x + a'` the
organic-to-aqueous direction solves. -/
def discOf (cs : IsoConsts α) (cu_or : α) : α :=
  (2 * cs.a * cs.b - hOf cs cu_or) * (2 * cs.a * cs.b - hOf cs cu_or) -
    4 * cs.b ^ 2 * cs.a ^ 2

/-- Organic-to-aqueous direction of the isotherm: zero on non-positive
input, `none` when the quadratic discriminant is negative, otherwise the
smaller quadratic root. -/
def aqueousFromOrganic (ops : Ops α) (cs : IsoConsts α) (cu_or : α) : Option α :=
  if cu_or ≤ 0 then some 0
  else
    let h := hOf cs cu_or
    let a := cs.b ^ 2
    let b := 2 * cs.a * cs.b - h
    let c := cs.a ^ 2
    let discriminant := b * b - 4 * a * c
    if discriminant < 0 then none
    else some ((h - 2 * cs.a * cs.b - ops.sqrt discriminant) / (2 * a))

/-- An `(aqueous, organic)` concentration pair. -/
structure StagePoint (α : Type) where
  x : α
  y : α
deriving DecidableEq

/-- A mixer-settler stage record of the extraction circuit.  The source
stores the equilibrium point's aqueous coordinate as the possibly-`null`
result of the organic-to-aqueous inversion, hence the `Option`. -/
structure ExStageRec (α : Type) where
  A : StagePoint α
  B : StagePoint α
  C : StagePoint α
  D_x : Option α
  D_y : α
  efficiency : α
deriving DecidableEq

/-- A mixer-settler stage record of the stripping circuit. -/
structure StStageRec (α : Type) where
  A : StagePoint α
  B : StagePoint α
  C : StagePoint α
  D : StagePoint α
  efficiency : α
deriving DecidableEq

/-- The per-stage approach-to-equilibrium residual whose root is the stage's
aqueous outlet: the source's `stage1_solver_func` / `stage2_solver_func`
with outlet organic `Y_out`, aqueous inlet `X_in`, flow ratio `o_a`, and
stage efficiency `eff` (in percent). -/
def stageFunc (ops : Ops α) (cs : IsoConsts α) (o_a eff Y_out X_in : α) : α → α :=
  fun X_out_guess =>
    let Y_eq := organicFromAqueous ops cs X_out_guess
    let Y_in := Y_out - (X_in - X_out_guess) / o_a
    (Y_out - Y_in) - eff / 100 * (Y_eq - Y_in)

/-- Maximum loading: the equilibrium organic concentration at the feed
copper concentration. -/
def mlOf (ops : Ops α) (i : ProcessInputs α) (V : α) : α :=
  organicFromAqueous ops (exConsts ops i V) i.plsCu

/-- Loaded organic: the maximum loading scaled by the max-loading
percentage. -/
def loOf (ops : Ops α) (i : ProcessInputs α) (V : α) : α :=
  mlOf ops i V * (i.percentageML / 100)

/-- Result record of the extraction circuit simulator. -/
structure ExtractionResult (α : Type) where
  ml : α
  lo : α
  so : α
  raff : α
  recovery : α
  raffAcid : α
  stage1 : ExStageRec α
  stage2 : ExStageRec α
  equilibriumCurve : List (StagePoint α)
  operatingLine : List (StagePoint α)
  stages : List (StagePoint α)
deriving DecidableEq

/-- Extraction circuit simulator: maximum loading, two chained secant-solved
countercurrent stages, raffinate figures and the McCabe-Thiele sampling
data. -/
def extractionCalc (ops : Ops α) (i : ProcessInputs α) (V : α) :
    Except Err (ExtractionResult α) := do
  let cs := exConsts ops i V
  let ml := mlOf ops i V
  let lo := loOf ops i V
  let Y_out_E1 := lo
  let X_in_E1 := i.plsCu
  let X_out_E1 ← solve (stageFunc ops cs i.o_a_ex i.effE1 Y_out_E1 X_in_E1)
    (X_in_E1 * 0.3) 1e-7 100
  let Y_in_E1 := Y_out_E1 - (X_in_E1 - X_out_E1) / i.o_a_ex
  let Y_out_E2 := Y_in_E1
  let X_in_E2 := X_out_E1
  let X_out_E2 ← solve (stageFunc ops cs i.o_a_ex i.effE2 Y_out_E2 X_in_E2)
    (X_in_E2 * 0.15) 1e-7 100
  let Y_in_E2 := Y_out_E2 - (X_in_E2 - X_out_E2) / i.o_a_ex
  let so := Y_in_E2
  let raff := X_out_E2
  let recovery := (i.plsCu - raff) / i.plsCu * 100
  let raffAcid := i.plsAcid + (i.plsCu - raff) * 1.54
  let equilibriumCurve := ((List.range 101).map fun k =>
      let x := i.plsCu / 100 * (k : α)
      StagePoint.mk x (organicFromAqueous ops cs x)).filter fun pt => 0 ≤ pt.y
  let operatingLine := [StagePoint.mk raff so, StagePoint.mk i.plsCu lo]
  let stages := [StagePoint.mk X_out_E1 Y_out_E1, StagePoint.mk X_out_E2 Y_out_E2]
  let stage1 := ExStageRec.mk (StagePoint.mk X_in_E1 Y_out_E1)
    (StagePoint.mk X_out_E1 Y_out_E1) (StagePoint.mk X_out_E1 Y_in_E1)
    (aqueousFromOrganic ops cs (organicFromAqueous ops cs X_out_E1))
    (organicFromAqueous ops cs X_out_E1) i.effE1
  let stage2 := ExStageRec.mk (StagePoint.mk X_in_E2 Y_out_E2)
    (StagePoint.mk X_out_E2 Y_out_E2) (StagePoint.mk X_out_E2 Y_in_E2)
    (aqueousFromOrganic ops cs (organicFromAqueous ops cs X_out_E2))
    (organicFromAqueous ops cs X_out_E2) i.effE2
  pure (ExtractionResult.mk ml lo so raff recovery raffAcid stage1 stage2
    equilibriumCurve operatingLine stages)

/-- Result record of the stripping circuit simulator. -/
structure StrippingResult (α : Type) where
  so : α
  recovery : α
  netCu : α
  o_a_st : α
  stage1 : StStageRec α
  stage2 : StStageRec α
  equilibriumCurve : List (StagePoint α)
  operatingLine : List (StagePoint α)
  stages : List (StagePoint α)
deriving DecidableEq

/-- The straight-line computation that follows the stripping simulator's
consistency check: derived O/A ratio, two closed-form stages, recovery, net
copper transfer and the McCabe-Thiele sampling data. -/
def strippingBody (ops : Ops α) (i : ProcessInputs α) (V lo so_ex : α) :
    StrippingResult α :=
  let o_a_st := (i.adCu - i.spCu) / (lo - so_ex)
  let cs := stConsts ops i V
  let Y_in_S1 := lo
  let X_out_S1 := i.adCu
  let Y_eq_S1 := organicFromAqueous ops cs X_out_S1
  let Y_out_S1 := Y_in_S1 - i.effS1 / 100 * (Y_in_S1 - Y_eq_S1)
  let X_in_S1 := X_out_S1 - o_a_st * (Y_in_S1 - Y_out_S1)
  let Y_in_S2 := Y_out_S1
  let X_out_S2 := X_in_S1
  let Y_eq_S2 := organicFromAqueous ops cs X_out_S2
  let so := Y_in_S2 - i.effS2 / 100 * (Y_in_S2 - Y_eq_S2)
  let recovery := (lo - so) / lo * 100
  let netCu := (lo - so) / V
  let equilibriumCurve := ((List.range 101).map fun k =>
      let x := i.spCu + (i.adCu - i.spCu + 5) / 100 * (k : α)
      StagePoint.mk x (organicFromAqueous ops cs x)).filter fun pt => 0 ≤ pt.y
  let operatingLine := [StagePoint.mk i.spCu so, StagePoint.mk i.adCu lo]
  let stages := [StagePoint.mk X_out_S1 Y_in_S1, StagePoint.mk X_out_S2 Y_in_S2]
  let stage1 := StStageRec.mk (StagePoint.mk X_out_S1 Y_in_S1)
    (StagePoint.mk X_out_S1 Y_out_S1) (StagePoint.mk X_in_S1 Y_out_S1)
    (StagePoint.mk X_out_S1 Y_eq_S1) i.effS1
  let stage2 := StStageRec.mk (StagePoint.mk X_out_S2 Y_in_S2)
    (StagePoint.mk X_out_S2 (Y_in_S2 - i.effS2 / 100 * (Y_in_S2 - Y_eq_S2)))
    (StagePoint.mk i.spCu so) (StagePoint.mk X_out_S2 Y_eq_S2) i.effS2
  StrippingResult.mk so recovery netCu o_a_st stage1 stage2 equilibriumCurve
    operatingLine stages

/-- Stripping circuit simulator: fails with the model-inconsistency error
when the loaded organic does not strictly exceed the extraction circuit's
stripped organic, otherwise computes `strippingBody`. -/
def strippingCalc (ops : Ops α) (i : ProcessInputs α) (V lo so_ex : α) :
    Except Err (StrippingResult α) :=
  if lo ≤ so_ex then .error .modelInconsistency
  else .ok (strippingBody ops i V lo so_ex)

/-- The full result record of one trial evaluation. -/
structure Results (α : Type) where
  v_percent : α
  extraction : ExtractionResult α
  stripping : StrippingResult α
  so_consistency : α
deriving DecidableEq

/-- One trial evaluation before the enclosing `try`/`catch`: extraction,
then stripping fed with the extraction outputs, then the consistency
residual. -/
def calculateAllCore (ops : Ops α) (i : ProcessInputs α) (V : α) :
    Except Err (Results α) := do
  let ex ← extractionCalc ops i V
  let st ← strippingCalc ops i V ex.lo ex.so
  pure (Results.mk V ex st (ex.so - st.so))

/-- One trial evaluation as the rest of the program sees it: the source
wraps the whole computation in `try`/`catch` and returns `null` on any
internal error. -/
def calculateAll (ops : Ops α) (i : ProcessInputs α) (V : α) : Option (Results α) :=
  (calculateAllCore ops i V).toOption

/-- Outer objective: the consistency residual of a trial, with a failed
trial absorbed into the large sentinel value `1e9`. -/
def objectiveFunction (ops : Ops α) (i : ProcessInputs α) (V : α) : α :=
  match calculateAll ops i V with
  | none => 1e9
  | some res => res.so_consistency

/-- The orchestration in `runSolver`: outer secant search from the initial
guess `17.1`, the plausibility check on the converged V%, then the final
evaluation via `calculateAll`.  The `Except` value is what reaches the
caller: an `Err` for a thrown error, otherwise the final evaluation's
(possibly `null`) result. -/
def runSolver (ops : Ops α) (i : ProcessInputs α) : Except Err (Option (Results α)) := do
  let optimalVPercent ← solve (objectiveFunction ops i) 17.1 1e-7 100
  if optimalVPercent ≤ 0 ∨ 50 < optimalVPercent then .error .outOfRange
  else pure (calculateAll ops i optimalVPercent)

/-- Real cube root (the library has no dedicated cube-root function):
odd extension of `x ^ (1/3)`. -/
noncomputable def cbrtR (x : ℝ) : ℝ :=
  if x < 0 then -((-x) ^ ((1 : ℝ) / 3)) else x ^ ((1 : ℝ) / 3)

/-- The genuine real-analytic operator pack: the program under study is the
engine instantiated at `realOps`. -/
noncomputable def realOps : Ops ℝ where
  sqrt := Real.sqrt
  cbrt := cbrtR
  cos := Real.cos
  acos := Real.arccos
  rpow := fun x y => x ^ y

/-- A computable stand-in operator pack over ℚ (all transcendental
primitives constantly zero), used to evaluate the operator-independent
structural statements on concrete inputs. -/
def ratOps : Ops ℚ where
  sqrt := fun _ => 0
  cbrt := fun _ => 0
  cos := fun _ => 0
  acos := fun _ => 0
  rpow := fun _ _ => 0

/-- The baseline input record of the source (its initial state), over ℚ for
concrete evaluation. -/
def sampleInputsQ : ProcessInputs ℚ :=
  ProcessInputs.mk 400 7 1.96 80 1.25 95 95 35 190 50 98 98

/-- Secant iteration transcribed from the specification's wording: stop on
`|f1| < tolerance`, fail on an invalid candidate (non-finite, i.e. zero
secant denominator, or non-positive), otherwise shift
`(x0,f0) ← (x1,f1)` and `(x1,f1) ← (x2, objective(x2))`. -/
def secantSpec (f : α → α) (tol : α) : Nat → α × α → α × α → Except Err α
  | 0, _, _ => .error .notConverged
  | n + 1, (x0, f0), (x1, f1) =>
    if |f1| < tol then .ok x1
    else
      let x2 := x1 - f1 * (x1 - x0) / (f1 - f0)
      if f1 - f0 = 0 ∨ x2 ≤ 0 then .error .diverged
      else secantSpec f tol n (x1, f1) (x2, f x2)

/-- Root-finder contract transcribed from the specification's wording: seed
`x0 = initial_guess - 0.1`, `x1 = initial_guess + 0.1`, clamp `x0` to `0.1`
when `x0 ≤ 0`, evaluate `f0, f1`, iterate. -/
def solveSpec (f : α → α) (initialGuess tol : α) (maxIter : Nat) : Except Err α :=
  let x0 := initialGuess - 0.1
  let x1 := initialGuess + 0.1
  let x0c := if x0 ≤ 0 then 0.1 else x0
  secantSpec f tol maxIter (x0c, f x0c) (x1, f x1)

/-- Modelled from the claim's wording of the organic-to-aqueous inversion:
`h = (e·Cu_or + f)·(c + d·Cu_or)²/Cu_or`, quadratic coefficients
`a' = b²`, `b' = 2ab - h`, `c' = a²`, `none` on negative discriminant
`b'² - 4a'c'`, otherwise the smaller root `(h - 2ab - √disc)/(2a')`. -/
def aqueousFromOrganicSpec (ops : Ops α) (cs : IsoConsts α) (cu_or : α) : Option α :=
  if (2 * cs.a * cs.b - (cs.e * cu_or + cs.f) * (cs.c + cs.d * cu_or) ^ 2 / cu_or) ^ 2 -
      4 * cs.b ^ 2 * cs.a ^ 2 < 0 then none
  else some (((cs.e * cu_or + cs.f) * (cs.c + cs.d * cu_or) ^ 2 / cu_or -
      2 * cs.a * cs.b -
      ops.sqrt ((2 * cs.a * cs.b -
          (cs.e * cu_or + cs.f) * (cs.c + cs.d * cu_or) ^ 2 / cu_or) ^ 2 -
        4 * cs.b ^ 2 * cs.a ^ 2)) /
    (2 * cs.b ^ 2))

/-- Modelled from the claim's wording of the cubic solver: `none` when
`|a|` is below the small threshold; otherwise Cardano's depressed form
`p = c/a - b²/(3a²)`, `q = 2b³/(27a³) - bc/(3a²) + d/a`,
`term2 = q²/4 + p³/27`; the Cardano sum
`cbrt(-q/2 + √term2) + cbrt(-q/2 - √term2) - b/(3a)` when `term2 ≥ 0`, and
exactly the first trigonometric root `2·cbrt(r)·cos(φ/3) - b/(3a)` with
`r = √(-p³/27)`, `φ = acos(-q/(2r))` when `term2 < 0`. -/
def solveCubicSpec (ops : Ops α) (a b c d : α) : Option α :=
  if |a| < 1e-9 then none
  else if 0 ≤ (2 * b ^ 3 / (27 * a ^ 3) - b * c / (3 * a ^ 2) + d / a) ^ 2 / 4 +
      (c / a - b ^ 2 / (3 * a ^ 2)) ^ 3 / 27 then
    some (ops.cbrt (-((2 * b ^ 3 / (27 * a ^ 3) - b * c / (3 * a ^ 2) + d / a) / 2) +
        ops.sqrt ((2 * b ^ 3 / (27 * a ^ 3) - b * c / (3 * a ^ 2) + d / a) ^ 2 / 4 +
          (c / a - b ^ 2 / (3 * a ^ 2)) ^ 3 / 27)) +
      ops.cbrt (-((2 * b ^ 3 / (27 * a ^ 3) - b * c / (3 * a ^ 2) + d / a) / 2) -
        ops.sqrt ((2 * b ^ 3 / (27 * a ^ 3) - b * c / (3 * a ^ 2) + d / a) ^ 2 / 4 +
          (c / a - b ^ 2 / (3 * a ^ 2)) ^ 3 / 27)) -
      b / (3 * a))
  else
    some (2 * ops.cbrt (ops.sqrt (-(c / a - b ^ 2 / (3 * a ^ 2)) ^ 3 / 27)) *
      ops.cos (ops.acos (-(2 * b ^ 3 / (27 * a ^ 3) - b * c / (3 * a ^ 2) + d / a) /
        (2 * ops.sqrt (-(c / a - b ^ 2 / (3 * a ^ 2)) ^ 3 / 27))) / 3) -
      b / (3 * a))

/-- The source's baseline input record with the feed copper set to `0`
(the degenerate scenario), over ℝ. -/
def zeroFeedInputs : ProcessInputs ℝ :=
  ProcessInputs.mk 400 0 1.96 80 1.25 95 95 35 190 50 98 98

/-- The degenerate-feed input record over ℚ. -/
def zeroFeedInputsQ : ProcessInputs ℚ :=
  ProcessInputs.mk 400 0 1.96 80 1.25 95 95 35 190 50 98 98

/-- The extraction isotherm constants of `zeroFeedInputs` at trial
V% = 1, written out (the power terms collapse because `1 ^ y = 1`). -/
def exConstsZF : IsoConsts ℝ :=
  IsoConsts.mk 1.96 (-1.54) 3.303 (-3.0842) (-25.698) 10.663

/-- Input record exhibiting the round-trip failure of the isotherm inverse
pair: the source's baseline inputs with the spent-electrolyte acid tuned so
that at trial V% = 1 the stripping quadratic's discriminant at `Cu_or = 1`
is exactly `900 = 30²`, keeping the inversion's value rational. -/
noncomputable def roundTripInputs : ProcessInputs ℝ :=
  ProcessInputs.mk 400 7 1.96 80 1.25 95 95 35
    (39007852998348187911700057 / 207699233609450000000000) 50 98 98

/-- The stripping isotherm constants of `roundTripInputs` at trial V% = 1,
written out (the power term collapses because `1 ^ y = 1`). -/
noncomputable def stRTConsts : IsoConsts ℝ :=
  IsoConsts.mk (50202841689897542911700057 / 207699233609450000000000)
    (-1.54) 3.303 (-3.0842) (-0.18889) 12.81

/-- The aqueous value the inversion returns for `Cu_or = 1` under
`stRTConsts`: `(h - 2ab - 30) / (2b²)`, about `150.76`. -/
noncomputable def XRT : ℝ := 337543796788254699618099601 / 2238997738309871000000000

/-- Isotherm constants witnessing the inverse-up-to-branch-selection
property on a perfect-square discriminant, so that the inversion value is
rational. -/
noncomputable def rtWitnessConsts : IsoConsts ℝ := IsoConsts.mk 1 1 1 1 1 (9 / 16)

theorem solveCubic_def (ops : Ops α) (a b c d : α) :
    solveCubic ops a b c d =
      if |a| < 1e-9 then none
      else if 0 ≤ cubicTerm2 a b c d then
        some (ops.cbrt (-(cubicQ a b c d / 2) + ops.sqrt (cubicTerm2 a b c d)) +
          ops.cbrt (-(cubicQ a b c d / 2) - ops.sqrt (cubicTerm2 a b c d)) -
          b / (3 * a))
      else
        some (2 * ops.cbrt (ops.sqrt
            (-(cubicP a b c * cubicP a b c * cubicP a b c) / 27)) *
          ops.cos (ops.acos (-(cubicQ a b c d) / (2 * ops.sqrt
            (-(cubicP a b c * cubicP a b c * cubicP a b c) / 27))) / 3) -
          b / (3 * a)) := rfl

theorem aqueousFromOrganic_def (ops : Ops α) (cs : IsoConsts α) (cu_or : α) :
    aqueousFromOrganic ops cs cu_or =
      if cu_or ≤ 0 then some 0
      else if discOf cs cu_or < 0 then none
      else some ((hOf cs cu_or - 2 * cs.a * cs.b - ops.sqrt (discOf cs cu_or)) /
        (2 * cs.b ^ 2)) := rfl

theorem stageFunc_def (ops : Ops α) (cs : IsoConsts α) (o_a eff Y_out X_in x : α) :
    stageFunc ops cs o_a eff Y_out X_in x =
      (Y_out - (Y_out - (X_in - x) / o_a)) -
        eff / 100 * (organicFromAqueous ops cs x - (Y_out - (X_in - x) / o_a)) := rfl

theorem organicFromAqueous_nonpos (ops : Ops α) (cs : IsoConsts α) {x : α}
    (h : x ≤ 0) : organicFromAqueous ops cs x = 0 := by
  unfold organicFromAqueous
  rw [if_pos h]

theorem pow_three_rpow_third {s : ℝ} (hs : 0 ≤ s) : (s ^ (3 : ℕ)) ^ ((1 : ℝ) / 3) = s := by
  rw [← Real.rpow_natCast s 3, ← Real.rpow_mul hs]
  rw [show ((3 : ℕ) : ℝ) * ((1 : ℝ) / 3) = 1 from by norm_num, Real.rpow_one]

theorem cbrtR_nonneg {x : ℝ} (hx : 0 ≤ x) : 0 ≤ cbrtR x := by
  unfold cbrtR
  rw [if_neg (not_lt.mpr hx)]
  exact Real.rpow_nonneg hx _

theorem cbrtR_cube (t : ℝ) : cbrtR (t ^ 3) = t := by
  rcases lt_or_le t 0 with ht | ht
  · have h2 : 0 < t ^ 2 := by
      rw [pow_two]
      exact mul_pos_of_neg_of_neg ht ht
    have h3 : t ^ 3 < 0 := by nlinarith
    unfold cbrtR
    rw [if_pos h3, show -(t ^ 3) = (-t) ^ (3 : ℕ) from by ring,
      pow_three_rpow_third (by linarith : (0 : ℝ) ≤ -t)]
    ring
  · have h3 : 0 ≤ t ^ 3 := pow_nonneg ht 3
    unfold cbrtR
    rw [if_neg (not_lt.mpr h3)]
    exact pow_three_rpow_third ht

theorem cbrtR_mono : Monotone cbrtR := by
  intro x y hxy
  unfold cbrtR
  rcases lt_or_le x 0 with hx | hx
  · rcases lt_or_le y 0 with hy | hy
    · rw [if_pos hx, if_pos hy]
      have h1 : (0 : ℝ) ≤ -y := by linarith
      have h2 := Real.rpow_le_rpow h1 (by linarith : -y ≤ -x)
        (by norm_num : (0 : ℝ) ≤ 1 / 3)
      linarith
    · rw [if_pos hx, if_neg (not_lt.mpr hy)]
      have h1 : 0 ≤ y ^ ((1 : ℝ) / 3) := Real.rpow_nonneg hy _
      have h2 : 0 ≤ (-x) ^ ((1 : ℝ) / 3) := Real.rpow_nonneg (by linarith) _
      linarith
  · have hy : 0 ≤ y := le_trans hx hxy
    rw [if_neg (not_lt.mpr hx), if_neg (not_lt.mpr hy)]
    exact Real.rpow_le_rpow hx hxy (by norm_num)

theorem le_cbrtR {t x : ℝ} (h : t ^ 3 ≤ x) : t ≤ cbrtR x :=
  (cbrtR_cube t).symm.trans_le (cbrtR_mono h)

theorem sqrt_le_of_le_sq {T s : ℝ} (hs : 0 ≤ s) (h : T ≤ s ^ 2) : Real.sqrt T ≤ s :=
  (Real.sqrt_le_sqrt h).trans_eq (Real.sqrt_sq hs)

/-- Rational lower bound for the value of the Cardano branch of the cubic
solver: bracket the square root between `s0` and `s1` and undercut the two
cube roots by `u0` and `v0`. -/
theorem cardano_lower (q T B u0 v0 s0 s1 : ℝ) (hs1 : 0 ≤ s1)
    (hT0 : s0 ^ 2 ≤ T) (hT1 : T ≤ s1 ^ 2)
    (hu : u0 ^ 3 ≤ -(q / 2) + s0) (hv : v0 ^ 3 ≤ -(q / 2) - s1) :
    u0 + v0 - B ≤ cbrtR (-(q / 2) + Real.sqrt T) +
      cbrtR (-(q / 2) - Real.sqrt T) - B := by
  have h1 : s0 ≤ Real.sqrt T := Real.le_sqrt_of_sq_le hT0
  have h2 : Real.sqrt T ≤ s1 := sqrt_le_of_le_sq hs1 hT1
  have hu2 : u0 ≤ cbrtR (-(q / 2) + Real.sqrt T) := le_cbrtR (by linarith)
  have hv2 : v0 ≤ cbrtR (-(q / 2) - Real.sqrt T) := le_cbrtR (by linarith)
  linarith

/-- Crude lower bound for the value of the trigonometric branch of the
cubic solver: the arc cosine lands in `[0, π]`, so the cosine of its third
is at least `1/2`, and the cube root of a square root is non-negative. -/
theorem trig_lower (A R B : ℝ) :
    -B ≤ 2 * cbrtR (Real.sqrt R) * Real.cos (Real.arccos A / 3) - B := by
  have hc : 0 ≤ cbrtR (Real.sqrt R) := cbrtR_nonneg (Real.sqrt_nonneg R)
  have h0 : 0 ≤ Real.arccos A / 3 := by
    have := Real.arccos_nonneg A; linarith
  have h1 : Real.arccos A / 3 ≤ Real.pi / 3 := by
    have := Real.arccos_le_pi A; linarith
  have h2 : Real.cos (Real.pi / 3) ≤ Real.cos (Real.arccos A / 3) :=
    Real.cos_le_cos_of_nonneg_of_le_pi h0 (by linarith [Real.pi_pos]) h1
  rw [Real.cos_pi_div_three] at h2
  have h3 : 0 ≤ cbrtR (Real.sqrt R) * Real.cos (Real.arccos A / 3) :=
    mul_nonneg hc (le_trans (by norm_num) h2)
  linarith

theorem solveLoop_eq_secantSpec (f : α → α) (tol : α) :
    ∀ (n : Nat) (x0 f0 x1 f1 : α),
      solveLoop f tol n x0 f0 x1 f1 = secantSpec f tol n (x0, f0) (x1, f1) := by
  intro n
  induction n with
  | zero => intro x0 f0 x1 f1; rfl
  | succ n ih =>
    intro x0 f0 x1 f1
    show (if |f1| < tol then Except.ok x1
        else if f1 - f0 = 0 then Except.error Err.diverged
        else if x1 - f1 * (x1 - x0) / (f1 - f0) ≤ 0 then Except.error Err.diverged
        else solveLoop f tol n x1 f1 (x1 - f1 * (x1 - x0) / (f1 - f0))
          (f (x1 - f1 * (x1 - x0) / (f1 - f0)))) =
      (if |f1| < tol then Except.ok x1
        else if f1 - f0 = 0 ∨ x1 - f1 * (x1 - x0) / (f1 - f0) ≤ 0 then
          Except.error Err.diverged
        else secantSpec f tol n (x1, f1) (x1 - f1 * (x1 - x0) / (f1 - f0),
          f (x1 - f1 * (x1 - x0) / (f1 - f0))))
    by_cases h1 : |f1| < tol
    · simp [h1]
    · by_cases h2 : f1 - f0 = 0
      · simp [h1, h2]
      · by_cases h3 : x1 - f1 * (x1 - x0) / (f1 - f0) ≤ 0
        · simp [h1, h2, h3]
        · simp only [if_neg h1, if_neg h2, if_neg h3, if_neg (not_or.mpr ⟨h2, h3⟩)]
          exact ih x1 f1 _ _

/-- Claim C3: the root finder seeds `x0 = initial_guess - 0.1` and
`x1 = initial_guess + 0.1`, clamps `x0` to `0.1` when `x0 ≤ 0`, returns
`x1` as soon as `|f1| < tolerance`, and otherwise performs the secant
update `x2 = x1 - f1·(x1-x0)/(f1-f0)`, shifting `(x0,f0) ← (x1,f1)` and
`(x1,f1) ← (x2, objective(x2))` on each iteration — stated as equality of
the source's `solve` with a transcription of the specified algorithm. -/
theorem claim_C3_solve_is_specified_secant (f : α → α) (initialGuess tol : α)
    (maxIter : Nat) :
    solve f initialGuess tol maxIter = solveSpec f initialGuess tol maxIter := by
  unfold solve solveSpec
  exact solveLoop_eq_secantSpec f tol maxIter _ _ _ _

theorem solveLoop_error_elim (f : α → α) (tol : α) :
    ∀ (n : Nat) (x0 f0 x1 f1 : α) (e : Err),
      solveLoop f tol n x0 f0 x1 f1 = .error e → e = .diverged ∨ e = .notConverged := by
  intro n
  induction n with
  | zero =>
    intro x0 f0 x1 f1 e h
    simp only [solveLoop, Except.error.injEq] at h
    exact Or.inr h.symm
  | succ n ih =>
    intro x0 f0 x1 f1 e h
    simp only [solveLoop] at h
    split_ifs at h with h1 h2 h3
    · exact Or.inl (Except.error.injEq .. |>.mp h).symm
    · exact Or.inl (Except.error.injEq .. |>.mp h).symm
    · exact ih _ _ _ _ _ h

/-- Claim C4: a secant candidate that is non-finite (zero denominator, the
embedded form of the source's `NaN`/infinite checks) or non-positive makes
`solve` fail immediately with the divergence error; an exhausted iteration
budget makes it fail with the non-convergence error; and every failure of
`solve` is one of those two errors (an `Except.error`, never a numeric
`Except.ok`). -/
theorem claim_C4_solve_failure_modes (f : α → α) (tol : α) (n : Nat)
    (x0 f0 x1 f1 g : α) :
    (¬ |f1| < tol → f1 - f0 = 0 →
      solveLoop f tol (n + 1) x0 f0 x1 f1 = .error .diverged) ∧
    (¬ |f1| < tol → x1 - f1 * (x1 - x0) / (f1 - f0) ≤ 0 →
      solveLoop f tol (n + 1) x0 f0 x1 f1 = .error .diverged) ∧
    (solveLoop f tol 0 x0 f0 x1 f1 = .error .notConverged) ∧
    (∀ e : Err, solve f g tol n = .error e → e = .diverged ∨ e = .notConverged) := by
  refine ⟨fun h1 h2 => ?_, fun h1 h2 => ?_, rfl, fun e h => ?_⟩
  · simp only [solveLoop, if_neg h1, if_pos h2]
  · by_cases h2' : f1 - f0 = 0
    · simp only [solveLoop, if_neg h1, if_pos h2']
    · simp only [solveLoop, if_neg h1, if_neg h2', if_pos h2]
  · exact solveLoop_error_elim f tol n _ _ _ _ e h

theorem claim_C4_witness :
    solveLoop (fun x : ℚ => x) 1 3 1 7 2 7 = .error .diverged ∧
    solveLoop (fun x : ℚ => x) 1 0 1 7 2 7 = .error .notConverged :=
  ⟨(claim_C4_solve_failure_modes (fun x : ℚ => x) 1 2 1 7 2 7 0).1
      (by norm_num) (by norm_num),
    (claim_C4_solve_failure_modes (fun x : ℚ => x) 1 0 1 7 2 7 0).2.2.1⟩

/-- Claim C10: with initial guess `0` (the per-stage seed when the stage's
aqueous inlet is `0`), the clamp makes both seed points coincide at `0.1`,
the first secant denominator is `f1 - f0 = 0` (a `NaN` candidate in the
source), and therefore `solve` either returns `0.1` immediately when
`|objective(0.1)| < tolerance` or fails with the divergence error — it
never performs a productive secant step. -/
theorem claim_C10_zero_guess_dichotomy (f : α → α) (tol : α) :
    solve f 0 tol 100 =
      if |f 0.1| < tol then .ok 0.1 else .error .diverged := by
  show solveLoop f tol 100 (if (0 : α) - 0.1 ≤ 0 then 0.1 else 0 - 0.1)
      (f (if (0 : α) - 0.1 ≤ 0 then 0.1 else 0 - 0.1)) (0 + 0.1) (f (0 + 0.1)) = _
  rw [if_pos (by norm_num : (0 : α) - 0.1 ≤ 0), zero_add]
  rw [show (100 : Nat) = 99 + 1 from rfl]
  show (if |f 0.1| < tol then Except.ok (0.1 : α)
      else if f 0.1 - f 0.1 = 0 then Except.error Err.diverged
      else _) = _
  rw [sub_self]
  by_cases h : |f (0.1 : α)| < tol
  · simp [h]
  · simp [h]

/-- Claim C5: the stripping simulator fails with the model-inconsistency
error when the loaded organic does not strictly exceed the extraction
circuit's stripped organic, before any derived quantity is computed;
otherwise it proceeds and derives the O/A ratio
`(advance_Cu - spent_Cu) / (LO - SO_extraction)`. -/
theorem claim_C5_stripping_guard (ops : Ops α) (i : ProcessInputs α) (V lo so_ex : α) :
    (lo ≤ so_ex → strippingCalc ops i V lo so_ex = .error .modelInconsistency) ∧
    (so_ex < lo → strippingCalc ops i V lo so_ex = .ok (strippingBody ops i V lo so_ex)) ∧
    (strippingBody ops i V lo so_ex).o_a_st = (i.adCu - i.spCu) / (lo - so_ex) := by
  refine ⟨fun h => ?_, fun h => ?_, rfl⟩
  · simp only [strippingCalc, if_pos h]
  · simp only [strippingCalc, if_neg (not_le.mpr h)]

theorem claim_C5_witness :
    strippingCalc ratOps sampleInputsQ 1 1 2 = .error .modelInconsistency ∧
    strippingCalc ratOps sampleInputsQ 1 2 1 = .ok (strippingBody ratOps sampleInputsQ 1 2 1) ∧
    (strippingBody ratOps sampleInputsQ 1 2 1).o_a_st = 15 := by
  refine ⟨(claim_C5_stripping_guard ratOps sampleInputsQ 1 1 2).1 (by norm_num),
    (claim_C5_stripping_guard ratOps sampleInputsQ 1 2 1).2.1 (by norm_num), ?_⟩
  rw [(claim_C5_stripping_guard ratOps sampleInputsQ 1 2 1).2.2]
  norm_num [sampleInputsQ]

/-- Claim C7: both isotherm mappings send non-positive inputs to zero, for
any circuit's constants (in particular for the extraction and stripping
instantiations). -/
theorem claim_C7_nonpositive_guards (ops : Ops α) (cs : IsoConsts α) (x y : α) :
    (x ≤ 0 → organicFromAqueous ops cs x = 0) ∧
    (y ≤ 0 → aqueousFromOrganic ops cs y = some 0) := by
  constructor
  · intro h; simp only [organicFromAqueous, if_pos h]
  · intro h; simp only [aqueousFromOrganic, if_pos h]

theorem claim_C7_witness :
    organicFromAqueous ratOps (exConsts ratOps sampleInputsQ 2) 0 = 0 ∧
    aqueousFromOrganic ratOps (stConsts ratOps sampleInputsQ 2) 0 = some 0 :=
  ⟨(claim_C7_nonpositive_guards ratOps (exConsts ratOps sampleInputsQ 2) 0 0).1 le_rfl,
    (claim_C7_nonpositive_guards ratOps (stConsts ratOps sampleInputsQ 2) 0 0).2 le_rfl⟩

/-- Claim C8: for positive organic input the organic-to-aqueous direction
computes exactly the claimed quadratic, returns `none` exactly when the
discriminant is negative, and otherwise returns the claimed smaller-root
formula. -/
theorem claim_C8_aqueous_inversion (ops : Ops α) (cs : IsoConsts α) (y : α)
    (hy : 0 < y) :
    aqueousFromOrganic ops cs y = aqueousFromOrganicSpec ops cs y ∧
    (aqueousFromOrganic ops cs y = none ↔ discOf cs y < 0) := by
  have hg : ¬ y ≤ 0 := not_le.mpr hy
  have hh : hOf cs y = (cs.e * y + cs.f) * (cs.c + cs.d * y) ^ 2 / y := rfl
  have hD : discOf cs y =
      (2 * cs.a * cs.b - (cs.e * y + cs.f) * (cs.c + cs.d * y) ^ 2 / y) ^ 2 -
        4 * cs.b ^ 2 * cs.a ^ 2 := by
    unfold discOf hOf; ring
  constructor
  · rw [aqueousFromOrganic_def, if_neg hg]
    unfold aqueousFromOrganicSpec
    rw [hh, hD]
  · rw [aqueousFromOrganic_def, if_neg hg]
    by_cases hlt : discOf cs y < 0
    · simp [hlt]
    · simp [hlt]

theorem claim_C8_witness :
    aqueousFromOrganic ratOps (exConsts ratOps sampleInputsQ 1) 1 =
      aqueousFromOrganicSpec ratOps (exConsts ratOps sampleInputsQ 1) 1 ∧
    (aqueousFromOrganic ratOps (exConsts ratOps sampleInputsQ 1) 1 = none ↔
      discOf (exConsts ratOps sampleInputsQ 1) 1 < 0) :=
  claim_C8_aqueous_inversion ratOps (exConsts ratOps sampleInputsQ 1) 1 (by norm_num)

/-- Claim C2: the cubic solver returns `none` exactly for a near-zero
leading coefficient and otherwise computes precisely the claimed Cardano
sum (when `term2 ≥ 0`) or the first trigonometric root (when `term2 < 0`),
never another root — stated as equality of the source's `solveCubic` with a
transcription of the claimed formulas. -/
theorem claim_C2_cubic_branch_policy (ops : Ops α) (a b c d : α) :
    solveCubic ops a b c d = solveCubicSpec ops a b c d := by
  rw [solveCubic_def]
  unfold solveCubicSpec
  by_cases h : |a| < 1e-9
  · rw [if_pos h, if_pos h]
  · rw [if_neg h, if_neg h]
    have ht : cubicTerm2 a b c d =
        (2 * b ^ 3 / (27 * a ^ 3) - b * c / (3 * a ^ 2) + d / a) ^ 2 / 4 +
          (c / a - b ^ 2 / (3 * a ^ 2)) ^ 3 / 27 := by
      unfold cubicTerm2 cubicQ cubicP; ring
    have hr : -(cubicP a b c * cubicP a b c * cubicP a b c) / 27 =
        -(c / a - b ^ 2 / (3 * a ^ 2)) ^ 3 / 27 := by
      unfold cubicP; ring
    have hq : cubicQ a b c d =
        2 * b ^ 3 / (27 * a ^ 3) - b * c / (3 * a ^ 2) + d / a := by
      unfold cubicQ; ring
    rw [ht, hr, hq]

theorem exConsts_zeroFeed : exConsts realOps zeroFeedInputs 1 = exConstsZF := by
  unfold exConsts exConstsZF realOps zeroFeedInputs
  norm_num [IsoConsts.mk.injEq, Real.one_rpow]

theorem ml_zeroFeed : mlOf realOps zeroFeedInputs 1 = 0 := by
  unfold mlOf
  rw [show zeroFeedInputs.plsCu = 0 from rfl]
  exact organicFromAqueous_nonpos realOps _ le_rfl

theorem lo_zeroFeed : loOf realOps zeroFeedInputs 1 = 0 := by
  unfold loOf
  rw [ml_zeroFeed, zero_mul]

theorem YeqZF_lower : (0.33 : ℝ) ≤ organicFromAqueous realOps exConstsZF 0.1 := by
  unfold organicFromAqueous
  rw [if_neg (by norm_num : ¬ (0.1 : ℝ) ≤ 0)]
  rw [solveCubic_def]
  rw [if_neg (by norm_num : ¬ |(1 : ℝ)| < 1e-9)]
  rw [if_pos (show (0 : ℝ) ≤ cubicTerm2 1 (alphaOf exConstsZF)
      (lambdaOf exConstsZF 0.1) (epsOf exConstsZF) from by
    unfold cubicTerm2 cubicQ cubicP alphaOf lambdaOf epsOf gOf exConstsZF
    norm_num)]
  simp only [Option.getD_some, realOps]
  refine le_trans ?_ (cardano_lower
    (cubicQ 1 (alphaOf exConstsZF) (lambdaOf exConstsZF 0.1) (epsOf exConstsZF))
    (cubicTerm2 1 (alphaOf exConstsZF) (lambdaOf exConstsZF 0.1) (epsOf exConstsZF))
    (alphaOf exConstsZF / (3 * 1)) (-0.007) (-0.513) 0.0673147 0.0673148
    (by norm_num) ?hT0 ?hT1 ?hu ?hv)
  case hT0 =>
    unfold cubicTerm2 cubicQ cubicP alphaOf lambdaOf epsOf gOf exConstsZF
    norm_num
  case hT1 =>
    unfold cubicTerm2 cubicQ cubicP alphaOf lambdaOf epsOf gOf exConstsZF
    norm_num
  case hu =>
    unfold cubicQ alphaOf lambdaOf epsOf gOf exConstsZF
    norm_num
  case hv =>
    unfold cubicQ alphaOf lambdaOf epsOf gOf exConstsZF
    norm_num
  · unfold alphaOf exConstsZF
    norm_num

theorem stageZF_le : stageFunc realOps exConstsZF 1.25 95 0 0 0.1 ≤ -0.3 := by
  rw [stageFunc_def]
  have h := YeqZF_lower
  linarith

theorem solveZF_diverged :
    solve (stageFunc realOps exConstsZF 1.25 95 0 0) ((0 : ℝ) * 0.3) 1e-7 100 =
      .error .diverged := by
  have habs : ¬ |stageFunc realOps exConstsZF 1.25 95 0 0 0.1| < 1e-7 := by
    intro hcon
    have h1 := stageZF_le
    have h2 := neg_abs_le (stageFunc realOps exConstsZF 1.25 95 0 0 0.1)
    linarith
  show solveLoop (stageFunc realOps exConstsZF 1.25 95 0 0) 1e-7 100
      (if (0 : ℝ) * 0.3 - 0.1 ≤ 0 then 0.1 else 0 * 0.3 - 0.1)
      (stageFunc realOps exConstsZF 1.25 95 0 0
        (if (0 : ℝ) * 0.3 - 0.1 ≤ 0 then 0.1 else 0 * 0.3 - 0.1))
      ((0 : ℝ) * 0.3 + 0.1)
      (stageFunc realOps exConstsZF 1.25 95 0 0 ((0 : ℝ) * 0.3 + 0.1)) =
    .error .diverged
  rw [if_pos (by norm_num : (0 : ℝ) * 0.3 - 0.1 ≤ 0)]
  rw [show (0 : ℝ) * 0.3 + 0.1 = 0.1 from by norm_num]
  rw [show (100 : ℕ) = 99 + 1 from rfl]
  show (if |stageFunc realOps exConstsZF 1.25 95 0 0 0.1| < 1e-7 then
      Except.ok (0.1 : ℝ)
    else if stageFunc realOps exConstsZF 1.25 95 0 0 0.1 -
        stageFunc realOps exConstsZF 1.25 95 0 0 0.1 = 0 then
      Except.error Err.diverged
    else _) = Except.error Err.diverged
  rw [if_neg habs, if_pos (sub_self _)]

theorem extractionZF_diverged :
    extractionCalc realOps zeroFeedInputs 1 = .error .diverged := by
  have h1 : solve (stageFunc realOps (exConsts realOps zeroFeedInputs 1)
      zeroFeedInputs.o_a_ex zeroFeedInputs.effE1 (loOf realOps zeroFeedInputs 1)
      zeroFeedInputs.plsCu) (zeroFeedInputs.plsCu * 0.3) 1e-7 100 =
      .error .diverged := by
    rw [exConsts_zeroFeed, lo_zeroFeed]
    show solve (stageFunc realOps exConstsZF 1.25 95 0 0) ((0 : ℝ) * 0.3) 1e-7 100 = _
    exact solveZF_diverged
  unfold extractionCalc
  dsimp only
  rw [h1]
  rfl

theorem coreZF_diverged :
    calculateAllCore realOps zeroFeedInputs 1 = .error .diverged := by
  unfold calculateAllCore
  rw [extractionZF_diverged]
  rfl

/-- Claim C6 (counterexample): at the degenerate feed (`plsCu = 0`, all
other inputs the source's baseline) and trial V% = 1, the run fails with
the secant divergence error raised by the extraction stage-1 solve — not
with the stripping simulator's `ModelInconsistencyError`, which is never
reached. -/
theorem claim_C6_counterexample :
    zeroFeedInputs.plsCu = 0 ∧
    calculateAllCore realOps zeroFeedInputs 1 = .error .diverged ∧
    Err.diverged ≠ Err.modelInconsistency :=
  ⟨rfl, coreZF_diverged, by decide⟩

/-- Claim C6 (amended): with feed copper 0 the extraction simulator yields
maximum loading `ML = 0` and loaded organic `LO = 0` (for every operator
pack, inputs and trial V%); but the stripping simulator need not raise
`ModelInconsistencyError`, because the extraction stage-1 secant solve can
diverge first: at the baseline inputs with `plsCu = 0` and trial V% = 1 the
whole evaluation fails with the divergence error before stripping runs. -/
theorem claim_C6_zero_feed_amended (ops : Ops α) (i : ProcessInputs α) (v : α)
    (h : i.plsCu = 0) :
    mlOf ops i v = 0 ∧ loOf ops i v = 0 ∧
      calculateAllCore realOps zeroFeedInputs 1 = .error .diverged := by
  have hml : mlOf ops i v = 0 := by
    unfold mlOf
    rw [h]
    exact organicFromAqueous_nonpos ops _ le_rfl
  refine ⟨hml, ?_, coreZF_diverged⟩
  unfold loOf
  rw [hml, zero_mul]

theorem claim_C6_witness :
    mlOf ratOps zeroFeedInputsQ 5 = 0 ∧ loOf ratOps zeroFeedInputsQ 5 = 0 ∧
      calculateAllCore realOps zeroFeedInputs 1 = .error .diverged :=
  claim_C6_zero_feed_amended ratOps zeroFeedInputsQ 5 rfl

theorem solve_error_elim (f : α → α) (g tol : α) (n : Nat) (e : Err)
    (h : solve f g tol n = .error e) : e = .diverged ∨ e = .notConverged :=
  solveLoop_error_elim f tol n (if g - 0.1 ≤ 0 then 0.1 else g - 0.1)
    (f (if g - 0.1 ≤ 0 then 0.1 else g - 0.1)) (g + 0.1) (f (g + 0.1)) e h

theorem runSolver_error_cases (ops : Ops α) (i : ProcessInputs α) (e : Err)
    (h : runSolver ops i = .error e) :
    e = .diverged ∨ e = .notConverged ∨ e = .outOfRange := by
  unfold runSolver at h
  cases hs : solve (objectiveFunction ops i) 17.1 1e-7 100 with
  | error e1 =>
    rw [hs] at h
    have he : e1 = e := by
      have h2 : (Except.error e1 : Except Err (Option (Results α))) = .error e := h
      exact (Except.error.injEq .. |>.mp h2)
    rcases solve_error_elim _ _ _ _ _ hs with h1 | h1
    · exact Or.inl (he ▸ h1)
    · exact Or.inr (Or.inl (he ▸ h1))
  | ok v =>
    rw [hs] at h
    have h2 : (if v ≤ 0 ∨ 50 < v then (Except.error Err.outOfRange : Except Err (Option (Results α)))
        else pure (calculateAll ops i v)) = .error e := h
    by_cases hr : v ≤ 0 ∨ 50 < v
    · rw [if_pos hr] at h2
      exact Or.inr (Or.inr (Except.error.injEq .. |>.mp h2).symm)
    · rw [if_neg hr] at h2
      exact absurd h2 (by simp [pure, Except.pure])

/-- Claim C1 (counterexample): an input and trial V% at which the trial
evaluation raises an internal error (`zeroFeedInputs` at V% = 1, where the
extraction stage-1 solve diverges), yet `calculateAll` — the very function
the source calls for the final evaluation at the converged V% — absorbs
the error into `none` (the source's `null`) instead of propagating it. -/
theorem claim_C1_counterexample :
    calculateAllCore realOps zeroFeedInputs 1 = .error .diverged ∧
    calculateAll realOps zeroFeedInputs 1 = none := by
  refine ⟨coreZF_diverged, ?_⟩
  unfold calculateAll
  rw [coreZF_diverged]
  rfl

/-- Claim C1 (amended): a trial evaluation that raises any internal error
is absorbed by the outer objective into the sentinel `1e9`; however the
final evaluation at the converged V% absorbs internal errors as well —
`calculateAll` catches them and returns `none` (the source's `null`), and
`runSolver` never propagates the internal `ModelInconsistencyError` to the
caller: only outer-search divergence, non-convergence, and the
out-of-range check reach it. -/
theorem claim_C1_error_propagation (ops : Ops α) (i : ProcessInputs α) (v : α)
    (e : Err) :
    (calculateAllCore ops i v = .error e → objectiveFunction ops i v = 1e9) ∧
    (calculateAllCore ops i v = .error e → calculateAll ops i v = none) ∧
    runSolver ops i ≠ .error .modelInconsistency := by
  have habs : calculateAllCore ops i v = .error e → calculateAll ops i v = none := by
    intro h
    unfold calculateAll
    rw [h]
    rfl
  refine ⟨fun h => ?_, habs, fun hcon => ?_⟩
  · unfold objectiveFunction
    rw [habs h]
  · rcases runSolver_error_cases ops i .modelInconsistency hcon with h | h | h <;>
      simp at h

theorem claim_C1_witness :
    objectiveFunction realOps zeroFeedInputs 1 = 1e9 ∧
    calculateAll realOps zeroFeedInputs 1 = none :=
  ⟨(claim_C1_error_propagation realOps zeroFeedInputs 1 .diverged).1 coreZF_diverged,
    (claim_C1_error_propagation realOps zeroFeedInputs 1 .diverged).2.1 coreZF_diverged⟩

theorem stConsts_roundTrip : stConsts realOps roundTripInputs 1 = stRTConsts := by
  unfold stConsts stRTConsts realOps roundTripInputs
  norm_num [IsoConsts.mk.injEq, Real.one_rpow]

theorem discRT : discOf stRTConsts 1 = 900 := by
  unfold discOf hOf stRTConsts
  norm_num

theorem aqueousRT : aqueousFromOrganic realOps stRTConsts 1 = some XRT := by
  rw [aqueousFromOrganic_def, if_neg (by norm_num : ¬ (1 : ℝ) ≤ 0), discRT]
  rw [if_neg (by norm_num : ¬ ((900 : ℝ) < 0))]
  simp only [realOps]
  rw [show (900 : ℝ) = 30 ^ 2 from by norm_num,
    Real.sqrt_sq (by norm_num : (0 : ℝ) ≤ 30)]
  unfold hOf stRTConsts XRT
  norm_num

theorem XRT_pos : (0 : ℝ) < XRT := by
  unfold XRT
  norm_num

theorem roundTripRT_lower : (22 : ℝ) ≤ organicFromAqueous realOps stRTConsts XRT := by
  unfold organicFromAqueous
  rw [if_neg (not_le.mpr XRT_pos)]
  rw [solveCubic_def, if_neg (by norm_num : ¬ |(1 : ℝ)| < 1e-9)]
  rw [if_neg (show ¬ ((0 : ℝ) ≤ cubicTerm2 1 (alphaOf stRTConsts)
      (lambdaOf stRTConsts XRT) (epsOf stRTConsts)) from by
    unfold cubicTerm2 cubicQ cubicP alphaOf lambdaOf epsOf gOf stRTConsts XRT
    norm_num)]
  simp only [Option.getD_some, realOps]
  refine le_trans ?_ (trig_lower _ _ (alphaOf stRTConsts / (3 * 1)))
  unfold alphaOf stRTConsts
  norm_num

/-- Claim C9 (counterexample): for the stripping isotherm instance at valid
inputs and trial V% = 1, the loading `y = 1` lies in the claimed valid
range — `aqueous_from_organic` is defined there and returns the positive
value `XRT` — yet the round trip `organic_from_aqueous (aqueous_from_organic 1)`
differs from `1` by more than `20`: the mappings are not mutual inverses on
the claimed range. -/
theorem claim_C9_counterexample :
    aqueousFromOrganic realOps (stConsts realOps roundTripInputs 1) 1 = some XRT ∧
    0 < XRT ∧
    20 < |organicFromAqueous realOps (stConsts realOps roundTripInputs 1) XRT - 1| := by
  rw [stConsts_roundTrip]
  refine ⟨aqueousRT, XRT_pos, ?_⟩
  have h := roundTripRT_lower
  rw [abs_of_nonneg (by linarith : (0 : ℝ) ≤
    organicFromAqueous realOps stRTConsts XRT - 1)]
  linarith

/-- Claim C9 (amended): the isotherm mappings are inverse only up to the
cubic solver's branch selection: whenever `aqueous_from_organic` returns a
non-zero aqueous value `x` for a positive loading `y` (non-degenerate
constants), `y` is a root of the monic cubic that `organic_from_aqueous`
solves at `x` — but the branch the cubic solver returns need not be `y`,
and on the stripping instance at trial V% = 1 it differs from `y` by more
than `20`. -/
theorem claim_C9_inverse_up_to_branch (cs : IsoConsts ℝ) (y x : ℝ) (hy : 0 < y)
    (hb : cs.b ≠ 0) (hd : cs.d ≠ 0) (he : cs.e ≠ 0) (hx : x ≠ 0)
    (hsome : aqueousFromOrganic realOps cs y = some x) :
    y ^ 3 + alphaOf cs * y ^ 2 + lambdaOf cs x * y + epsOf cs = 0 := by
  rw [aqueousFromOrganic_def, if_neg (not_le.mpr hy)] at hsome
  by_cases hdisc : discOf cs y < 0
  · rw [if_pos hdisc] at hsome
    exact absurd hsome (by simp)
  · rw [if_neg hdisc] at hsome
    simp only [Option.some.injEq] at hsome
    set S := Real.sqrt (discOf cs y) with hS
    have hS2 : S * S = (2 * cs.a * cs.b - hOf cs y) * (2 * cs.a * cs.b - hOf cs y) -
        4 * cs.b ^ 2 * cs.a ^ 2 := by
      rw [hS, Real.mul_self_sqrt (not_lt.mp hdisc)]
      rfl
    have hb2 : cs.b ^ 2 ≠ 0 := pow_ne_zero 2 hb
    have hxval : x = (hOf cs y - 2 * cs.a * cs.b - S) / (2 * cs.b ^ 2) := hsome.symm
    have expand : (cs.a + cs.b * ((hOf cs y - 2 * cs.a * cs.b - S) / (2 * cs.b ^ 2))) ^ 2 -
        hOf cs y * ((hOf cs y - 2 * cs.a * cs.b - S) / (2 * cs.b ^ 2)) =
        (S * S - ((2 * cs.a * cs.b - hOf cs y) * (2 * cs.a * cs.b - hOf cs y) -
          4 * cs.b ^ 2 * cs.a ^ 2)) / (4 * cs.b ^ 2) := by
      field_simp
      ring
    have key : (cs.a + cs.b * x) ^ 2 = hOf cs y * x := by
      have h0 : (cs.a + cs.b * x) ^ 2 - hOf cs y * x = 0 := by
        rw [hxval, expand, hS2]
        simp
      linarith [h0]
    have hgh : gOf cs x = hOf cs y := by
      unfold gOf
      rw [key, mul_div_assoc, div_self hx, mul_one]
    unfold alphaOf lambdaOf epsOf
    rw [hgh]
    unfold hOf
    have hy0 : y ≠ 0 := ne_of_gt hy
    field_simp
    ring

theorem claim_C9_witness :
    aqueousFromOrganic realOps rtWitnessConsts 1 = some (1 / 4) ∧
    (1 : ℝ) ^ 3 + alphaOf rtWitnessConsts * 1 ^ 2 +
      lambdaOf rtWitnessConsts (1 / 4) * 1 + epsOf rtWitnessConsts = 0 := by
  have hsome : aqueousFromOrganic realOps rtWitnessConsts 1 = some (1 / 4) := by
    rw [aqueousFromOrganic_def, if_neg (by norm_num : ¬ (1 : ℝ) ≤ 0)]
    have hdisc : discOf rtWitnessConsts 1 = (15 / 4 : ℝ) ^ 2 := by
      unfold discOf hOf rtWitnessConsts
      norm_num
    rw [hdisc, if_neg (by norm_num : ¬ (((15 / 4 : ℝ)) ^ 2 < 0))]
    simp only [realOps]
    rw [Real.sqrt_sq (by norm_num : (0 : ℝ) ≤ 15 / 4)]
    unfold hOf rtWitnessConsts
    norm_num
  exact ⟨hsome, claim_C9_inverse_up_to_branch rtWitnessConsts 1 (1 / 4)
    (by norm_num) (by norm_num [rtWitnessConsts]) (by norm_num [rtWitnessConsts])
    (by norm_num [rtWitnessConsts]) (by norm_num) hsome⟩

end SX
